import Mathlib

set_option maxHeartbeats 1000000

namespace GcUtils

/-- Model of a JSON-representable leaf value stored in the string-keyed maps
(user data, metadata, network data). The constructor `unsupported` stands for a
Go value that encoding/json rejects, so that serialization of a map can fail,
exactly as json.Marshal / json.MarshalIndent can fail on such values. -/
inductive Jval where
  | null
  | bool (b : Bool)
  | num (n : Int)
  | str (s : String)
  | unsupported
deriving DecidableEq

/-- Serializes one JSON leaf value, failing on unsupported values as
encoding/json does. -/
def jvalToString : Jval → Except String String
  | .null => Except.ok "null"
  | .bool b => Except.ok (if b then "true" else "false")
  | .num n => Except.ok (toString n)
  | .str s => Except.ok ("\"" ++ s ++ "\"")
  | .unsupported => Except.error "json: unsupported type"

/-- Renders the entries of a map for indented output, propagating the first
serialization failure. -/
def indentEntries : List (String × Jval) → Except String (List String)
  | [] => Except.ok []
  | (k, v) :: rest =>
    match jvalToString v, indentEntries rest with
    | Except.ok vs, Except.ok restStrs =>
        Except.ok (("\"" ++ k ++ "\": " ++ vs) :: restStrs)
    | Except.error e, _ => Except.error e
    | _, Except.error e => Except.error e

/-- Renders the entries of a map for compact output, propagating the first
serialization failure. -/
def compactEntries : List (String × Jval) → Except String (List String)
  | [] => Except.ok []
  | (k, v) :: rest =>
    match jvalToString v, compactEntries rest with
    | Except.ok vs, Except.ok restStrs =>
        Except.ok (("\"" ++ k ++ "\":" ++ vs) :: restStrs)
    | Except.error e, _ => Except.error e
    | _, Except.error e => Except.error e

/-- Model of json.MarshalIndent(data, "", "    ") as called by
UserDataMap.ToUserData in requests.go. -/
def marshalIndent (m : List (String × Jval)) : Except String String :=
  match indentEntries m with
  | Except.error e => Except.error e
  | Except.ok [] => Except.ok "\x7b\x7d"
  | Except.ok es =>
      Except.ok ("\x7b\n    " ++ String.intercalate ",\n    " es ++ "\n\x7d")

/-- Model of json.Marshal as called for the metadata and network-data maps. -/
def marshalCompact (m : List (String × Jval)) : Except String String :=
  match compactEntries m with
  | Except.error e => Except.error e
  | Except.ok es => Except.ok ("\x7b" ++ String.intercalate "," es ++ "\x7d")

/-- UserData may be a string, or JSON data (requests.go). The Go interface
UserDataBuilder with its two implementing types UserDataString and UserDataMap
is embedded as a tagged union; file contents ([]byte in Go) are modeled as
Lean strings of bytes. -/
inductive UserDataBuilder where
  | str (data : String)
  | map (data : List (String × Jval))
deriving DecidableEq

/-- ToUserData: the UserDataString variant returns the raw bytes of the string
([]byte(data), nil); the UserDataMap variant calls json.MarshalIndent. -/
def UserDataBuilder.ToUserData : UserDataBuilder → Except String String
  | .str data => Except.ok data
  | .map data => marshalIndent data

/-- A ConfigDrive struct will be used to create a base64-encoded, gzipped
ISO9660 image for use with Ironic (source: the ConfigDrive struct). -/
structure ConfigDrive where
  UserData : Option UserDataBuilder
  MetaData : Option (List (String × Jval))
  NetworkData : Option (List (String × Jval))
deriving DecidableEq

/-- The staged file written for the user-data payload, if present, at the
canonical path openstack/latest/user_data under the staging root. -/
def userFiles : Option UserDataBuilder → Except String (List (String × String))
  | none => Except.ok []
  | some u =>
    match u.ToUserData with
    | Except.error e => Except.error e
    | Except.ok b => Except.ok [("openstack/latest/user_data", b)]

/-- The staged file written for the metadata mapping, if present. -/
def metaFiles : Option (List (String × Jval)) → Except String (List (String × String))
  | none => Except.ok []
  | some m =>
    match marshalCompact m with
    | Except.error e => Except.error e
    | Except.ok b => Except.ok [("openstack/latest/meta_data.json", b)]

/-- The staged file written for the network-data mapping, if present. -/
def networkFiles : Option (List (String × Jval)) → Except String (List (String × String))
  | none => Except.ok []
  | some m =>
    match marshalCompact m with
    | Except.error e => Except.error e
    | Except.ok b => Except.ok [("openstack/latest/network_data.json", b)]

/-- The staged directory tree produced by ToConfigDrive before packing: the
sequence of relative path / content pairs written to the scratch directory,
in the order the source writes them (user data, then metadata, then network
data). -/
def ConfigDrive.files (cd : ConfigDrive) : Except String (List (String × String)) :=
  match userFiles cd.UserData with
  | Except.error e => Except.error e
  | Except.ok l1 =>
    match metaFiles cd.MetaData with
    | Except.error e => Except.error e
    | Except.ok l2 =>
      match networkFiles cd.NetworkData with
      | Except.error e => Except.error e
      | Except.ok l3 => Except.ok (l1 ++ l2 ++ l3)

/-- Modelled from the spec: PackDirectoryAsISO, whose source is not under
src/, packages the staged directory tree into an ISO-9660 image and
compresses it with gzip (spec section 4.2 steps 6 and 7). It is modeled as an
abstract packer from the staged tree to the compressed image bytes, which may
fail on any underlying archive-construction failure. -/
def PackDirectoryAsISO : Type := List (String × String) → Except String (List Nat)

/-- Base64 encoding with the standard alphabet and padding, modeling
encoding/base64 StdEncoding.EncodeToString. Bytes are Nat values below 256. -/
def base64Table : List Char :=
  "ABCDEFGHIJKLMNOPQRSTUVWXYZabcdefghijklmnopqrstuvwxyz0123456789+/".toList

/-- Looks up one character of the base64 alphabet. -/
def b64c (n : Nat) : Char := base64Table.getD n 'A'

/-- Encodes a byte list in base64, three bytes at a time, padding the final
group as the standard (non-URL-safe) alphabet requires, with no line wraps. -/
def base64Encode : List Nat → String
  | [] => ""
  | [a] => String.mk [b64c (a / 4), b64c (a % 4 * 16), '=', '=']
  | [a, b] => String.mk [b64c (a / 4), b64c (a % 4 * 16 + b / 16), b64c (b % 16 * 4), '=']
  | a :: b :: c :: rest =>
      String.mk [b64c (a / 4), b64c (a % 4 * 16 + b / 16),
                 b64c (b % 16 * 4 + c / 64), b64c (c % 64)] ++ base64Encode rest

/-- ToConfigDrive: stages the payload files in a scratch directory, packs the
tree as a gzipped ISO9660 image, and returns it base64-encoded (source:
ConfigDrive.ToConfigDrive; the packer is the spec-modeled PackDirectoryAsISO
passed as a parameter). -/
def ConfigDrive.ToConfigDrive (pack : PackDirectoryAsISO) (cd : ConfigDrive) :
    Except String String :=
  match cd.files with
  | Except.error e => Except.error e
  | Except.ok fs =>
    match pack fs with
    | Except.error e => Except.error e
    | Except.ok result => Except.ok (base64Encode result)

/-- Provision-state constant of the external gophercloud nodes package. -/
def Manageable : String := "manageable"

/-- Provision-state constant of the external gophercloud nodes package. -/
def Verifying : String := "verifying"

/-- Provision-state constant of the external gophercloud nodes package. -/
def Available : String := "available"

/-- Provision-state constant of the external gophercloud nodes package. -/
def Cleaning : String := "cleaning"

/-- Provision-state constant of the external gophercloud nodes package. -/
def Active : String := "active"

/-- Provision-state constant of the external gophercloud nodes package. -/
def DeployWait : String := "wait call-back"

/-- Provision-state constant of the external gophercloud nodes package. -/
def Deploying : String := "deploying"

/-- The observable part of the remote node as read by nodes.Get. -/
structure Node where
  Name : String
  ProvisionState : String
deriving DecidableEq

/-- One patch operation of nodes.UpdateOpts, as supplied by the caller. -/
structure UpdateOperation where
  Op : String
  Path : String
  Value : Jval
deriving DecidableEq

/-- DeploymentState tracks the current state of an Ironic node deployment
(integer-channel variant: a string type with one constant per state; embedded
as an enumeration of exactly those constants). -/
inductive DeploymentState where
  | sBegin
  | sConfigure
  | sManage
  | sWaitManage
  | sProvide
  | sWaitProvide
  | sDeploy
  | sWaitDeploy
  | sDone
deriving DecidableEq

/-- State-name constant of the integer-channel variant. -/
def StateBegin : DeploymentState := .sBegin

/-- State-name constant of the integer-channel variant. -/
def StateConfigure : DeploymentState := .sConfigure

/-- State-name constant of the integer-channel variant. -/
def StateManage : DeploymentState := .sManage

/-- State-name constant of the integer-channel variant. -/
def StateWaitManage : DeploymentState := .sWaitManage

/-- State-name constant of the integer-channel variant. -/
def StateProvide : DeploymentState := .sProvide

/-- State-name constant of the integer-channel variant. -/
def StateWaitProvide : DeploymentState := .sWaitProvide

/-- State-name constant of the integer-channel variant. -/
def StateDeploy : DeploymentState := .sDeploy

/-- State-name constant of the integer-channel variant. -/
def StateWaitDeploy : DeploymentState := .sWaitDeploy

/-- State-name constant of the integer-channel variant. -/
def StateDone : DeploymentState := .sDone

/-- Progress-percentage constant of the integer-channel variant. -/
def StateBeginPercent : Int := 0

/-- Progress-percentage constant of the integer-channel variant. -/
def StateConfigurePercent : Int := 10

/-- Progress-percentage constant of the integer-channel variant. -/
def StateManagePercent : Int := 15

/-- Progress-percentage constant of the integer-channel variant. -/
def StateWaitManagePercent : Int := 20

/-- Progress-percentage constant of the integer-channel variant. -/
def StateProvidePercent : Int := 25

/-- Progress-percentage constant of the integer-channel variant. -/
def StateWaitProvidePercent : Int := 30

/-- Progress-percentage constant of the integer-channel variant. -/
def StateDeployPercent : Int := 35

/-- Progress-percentage constant of the integer-channel variant. -/
def StateWaitDeployPercent : Int := 95

/-- Progress-percentage constant of the integer-channel variant. -/
def StateDonePercent : Int := 100

/-- An observable action of one run: a value sent on the progress channel, a
remote call, a poll sleep, or the close of the channel. -/
inductive Event where
  | send (v : Int)
  | callUpdate
  | callProvisionState (target : String)
  | callGet
  | sleep
  | close
deriving DecidableEq

/-- The mutable fields of the Deployment struct during one run, plus the
index of the next poll response to consume. chanDummy records whether the
caller passed a nil channel, in which case Deploy substituted a fresh
unconsumed channel, every send on which blocks forever. -/
structure DS where
  NodeUUID : String
  UpdateOpts : List UpdateOperation
  configDrive : ConfigDrive
  error : Option String
  currentState : DeploymentState
  currentPercent : Int
  chanDummy : Bool
  pollIdx : Nat
deriving DecidableEq

/-- The remote collaborator: responses of the patch call, of each
provision-state change request, of the n-th nodes.Get poll, and the
config-drive packer. -/
structure Env where
  update : Except String Unit
  changeProvisionState : String → Except String Unit
  polls : Nat → Except String Node
  pack : PackDirectoryAsISO

/-- The control point of the state machine: which function of the recursive
dispatch chain is executing. -/
inductive Phase where
  | nextState
  | configure
  | manage
  | waitManage
  | provide
  | waitProvide
  | deploy
  | waitDeploy
  | done
deriving DecidableEq

/-- Result of a run fragment: a normal return carrying the returned error
value and the final deployment fields, a block forever on a channel send that
no reader consumes, or fuel exhaustion (the fragment performs more steps than
the fuel allows, in particular it does not terminate within the fuel). Every
result carries the events the fragment emitted. -/
inductive Res where
  | finished (ret : Option String) (s : DS) (ev : List Event)
  | blocked (ev : List Event)
  | fuelOut (ev : List Event)
deriving DecidableEq

/-- Prepends events emitted before a fragment to the fragment result. -/
def Res.pre (e : List Event) : Res → Res
  | .finished r s ev => .finished r s (e ++ ev)
  | .blocked ev => .blocked (e ++ ev)
  | .fuelOut ev => .fuelOut (e ++ ev)

/-- The events carried by a result. -/
def Res.events : Res → List Event
  | .finished _ _ ev => ev
  | .blocked ev => ev
  | .fuelOut ev => ev

/-- True when the result is a normal return. -/
def Res.isFinished : Res → Bool
  | .finished _ _ _ => true
  | _ => false

/-- True when the result is a normal return with a nil returned error. -/
def Res.isSuccess : Res → Bool
  | .finished none _ _ => true
  | _ => false

/-- Returned error value of a normal return. -/
def Res.retError : Res → Option String
  | .finished r _ _ => r
  | _ => none

/-- Error field of the deployment instance at a normal return. -/
def Res.finalError : Res → Option String
  | .finished _ s _ => s.error
  | _ => none

/-- Result of one of the polling loops: brk ends the loop by break (control
then reaches the nextState call after the loop), ret returns from the
enclosing function directly, the others are as in Res. -/
inductive LoopRes where
  | brk (s : DS) (ev : List Event)
  | ret (r : Option String) (s : DS) (ev : List Event)
  | blocked (ev : List Event)
  | fuelOut (ev : List Event)
deriving DecidableEq

/-- Prepends events to a loop result. -/
def LoopRes.pre (e : List Event) : LoopRes → LoopRes
  | .brk s ev => .brk s (e ++ ev)
  | .ret r s ev => .ret r s (e ++ ev)
  | .blocked ev => .blocked (e ++ ev)
  | .fuelOut ev => .fuelOut (e ++ ev)

/-- The events carried by a loop result. -/
def LoopRes.events : LoopRes → List Event
  | .brk _ ev => ev
  | .ret _ _ ev => ev
  | .blocked ev => ev
  | .fuelOut ev => ev

/-- A send on the progress channel: the caller channel accepts the value, the
substituted dummy channel blocks forever. -/
def sendEv (v : Int) (s : DS) : Option (List Event) :=
  if s.chanDummy then none else some [Event.send v]

/-- The switch of nextState in the integer-channel variant: from the current
state it picks the next state, the percent bookkeeping of that case, and the
function to run next; the default case yields none (unknown state). -/
def dispatch (s : DS) : Option (DS × Phase) :=
  match s.currentState with
  | .sBegin => some ({s with currentState := StateConfigure}, Phase.configure)
  | .sConfigure => some ({s with currentState := StateManage}, Phase.manage)
  | .sManage =>
      some ({s with currentPercent := StateConfigurePercent,
                    currentState := StateWaitManage}, Phase.waitManage)
  | .sWaitManage =>
      some ({s with currentPercent := StateManagePercent,
                    currentState := StateProvide}, Phase.provide)
  | .sProvide =>
      some ({s with currentPercent := StateWaitManagePercent,
                    currentState := StateWaitProvide}, Phase.waitProvide)
  | .sWaitProvide =>
      some ({s with currentPercent := StateProvidePercent,
                    currentState := StateDeploy}, Phase.deploy)
  | .sDeploy =>
      some ({s with currentPercent := StateWaitProvidePercent,
                    currentState := StateWaitDeploy}, Phase.waitDeploy)
  | .sWaitDeploy =>
      some ({s with currentPercent := StateDeployPercent,
                    currentState := StateDone}, Phase.done)
  | .sDone => none

/-- The loop of waitManage: polls the node; a poll failure records the error
and breaks; manageable breaks; verifying sleeps and re-polls; any other state
records an error on the instance and loops again without breaking, exactly as
the source does. -/
def waitManageLoop (env : Env) : Nat → DS → LoopRes
  | 0, _ => .fuelOut []
  | Nat.succ n, s =>
    match env.polls s.pollIdx with
    | Except.error e =>
        .brk {s with pollIdx := s.pollIdx + 1, error := some e} [Event.callGet]
    | Except.ok node =>
      let s1 : DS := {s with pollIdx := s.pollIdx + 1}
      if node.ProvisionState = Manageable then .brk s1 [Event.callGet]
      else if node.ProvisionState = Verifying then
        (waitManageLoop env n s1).pre [Event.callGet, Event.sleep]
      else
        (waitManageLoop env n
          {s1 with error := some ("manage failed: " ++ node.Name ++
            " current state is: " ++ node.ProvisionState)}).pre [Event.callGet]

/-- The loop of waitProvide: polls the node; a poll failure records the error
and breaks; available breaks; cleaning sleeps and re-polls; any other state
returns an error from the enclosing function directly, without recording it
on the instance, exactly as the source does. -/
def waitProvideLoop (env : Env) : Nat → DS → LoopRes
  | 0, _ => .fuelOut []
  | Nat.succ n, s =>
    match env.polls s.pollIdx with
    | Except.error e =>
        .brk {s with pollIdx := s.pollIdx + 1, error := some e} [Event.callGet]
    | Except.ok node =>
      let s1 : DS := {s with pollIdx := s.pollIdx + 1}
      if node.ProvisionState = Available then .brk s1 [Event.callGet]
      else if node.ProvisionState = Cleaning then
        (waitProvideLoop env n s1).pre [Event.callGet, Event.sleep]
      else
        .ret (some ("provide failed, " ++ node.Name ++
          " current state is: " ++ node.ProvisionState)) s1 [Event.callGet]

/-- The loop of waitDeploy: polls the node; a poll failure records the error
and breaks; active breaks; wait call-back or deploying advances the percent
ramp by 2 while it is below StateWaitDeployPercent, sending the new percent,
then sleeps; any other state records an error and breaks. -/
def waitDeployLoop (env : Env) : Nat → DS → LoopRes
  | 0, _ => .fuelOut []
  | Nat.succ n, s =>
    match env.polls s.pollIdx with
    | Except.error e =>
        .brk {s with pollIdx := s.pollIdx + 1, error := some e} [Event.callGet]
    | Except.ok node =>
      let s1 : DS := {s with pollIdx := s.pollIdx + 1}
      if node.ProvisionState = Active then .brk s1 [Event.callGet]
      else if node.ProvisionState = DeployWait ∨ node.ProvisionState = Deploying then
        if s1.currentPercent < StateWaitDeployPercent then
          let s2 : DS := {s1 with currentPercent := s1.currentPercent + 2}
          if s2.chanDummy then .blocked [Event.callGet]
          else
            (waitDeployLoop env n s2).pre
              [Event.callGet, Event.send s2.currentPercent, Event.sleep]
        else (waitDeployLoop env n s1).pre [Event.callGet, Event.sleep]
      else
        .brk {s1 with error := some ("deploy failed: " ++ node.Name ++
          " current state is: " ++ node.ProvisionState)} [Event.callGet]

/-- The recursive dispatch chain of the integer-channel variant. Each state
function performs its remote work and tail-calls nextState; nextState sends
the percent of the state it enters and dispatches, short-circuiting to done
when the Error field is set; done sends StateDonePercent unconditionally and
returns the Error field. Fuel bounds the number of steps. -/
def run (env : Env) : Nat → DS → Phase → Res
  | 0, _, _ => .fuelOut []
  | Nat.succ n, s, ph =>
    match ph with
    | .nextState =>
      match s.error with
      | some _ => run env n s .done
      | none =>
        match dispatch s with
        | none => .finished (some "unknown state") s []
        | some (s1, ph1) =>
          match sendEv s1.currentPercent s1 with
          | none => .blocked []
          | some ev1 => (run env n s1 ph1).pre ev1
    | .configure =>
      match s.UpdateOpts with
      | [] => run env n s .nextState
      | _ :: _ =>
        match env.update with
        | Except.error e =>
            (run env n {s with error := some e} .nextState).pre [Event.callUpdate]
        | Except.ok _ => (run env n s .nextState).pre [Event.callUpdate]
    | .manage =>
      match env.changeProvisionState "manage" with
      | Except.error e =>
          (run env n {s with error := some e} .nextState).pre
            [Event.callProvisionState "manage"]
      | Except.ok _ =>
          (run env n s .nextState).pre [Event.callProvisionState "manage"]
    | .waitManage =>
      match waitManageLoop env n s with
      | .brk s1 ev1 => (run env n s1 .nextState).pre ev1
      | .ret r s1 ev1 => .finished r s1 ev1
      | .blocked ev1 => .blocked ev1
      | .fuelOut ev1 => .fuelOut ev1
    | .provide =>
      match env.changeProvisionState "provide" with
      | Except.error e =>
          (run env n {s with error := some e} .nextState).pre
            [Event.callProvisionState "provide"]
      | Except.ok _ =>
          (run env n {s with error := none} .nextState).pre
            [Event.callProvisionState "provide"]
    | .waitProvide =>
      match waitProvideLoop env n s with
      | .brk s1 ev1 => (run env n s1 .nextState).pre ev1
      | .ret r s1 ev1 => .finished r s1 ev1
      | .blocked ev1 => .blocked ev1
      | .fuelOut ev1 => .fuelOut ev1
    | .deploy =>
      match ConfigDrive.ToConfigDrive env.pack s.configDrive with
      | Except.error e => run env n {s with error := some e} .nextState
      | Except.ok _ =>
        match env.changeProvisionState "active" with
        | Except.error e =>
            (run env n {s with error := some e} .nextState).pre
              [Event.callProvisionState "active"]
        | Except.ok _ =>
            (run env n {s with error := none} .nextState).pre
              [Event.callProvisionState "active"]
    | .waitDeploy =>
      match waitDeployLoop env n s with
      | .brk s1 ev1 => (run env n s1 .nextState).pre ev1
      | .ret r s1 ev1 => .finished r s1 ev1
      | .blocked ev1 => .blocked ev1
      | .fuelOut ev1 => .fuelOut ev1
    | .done =>
      match sendEv StateDonePercent s with
      | none => .blocked []
      | some ev1 => .finished s.error s ev1

/-- The caller-supplied fields of a Deployment before a run. -/
structure DeployInput where
  NodeUUID : String
  UpdateOpts : List UpdateOperation
  configDrive : ConfigDrive
  error : Option String
deriving DecidableEq

/-- The Deployment fields at the start of Deploy: state BEGIN, zero percent. -/
def initDS (d : DeployInput) (percentNil : Bool) : DS :=
  { NodeUUID := d.NodeUUID
    UpdateOpts := d.UpdateOpts
    configDrive := d.configDrive
    error := d.error
    currentState := StateBegin
    currentPercent := 0
    chanDummy := percentNil
    pollIdx := 0 }

/-- Appends the deferred close of the progress channel, which runs exactly
when Deploy returns. -/
def closeWrap : Res → Res
  | .finished r s ev => .finished r s (ev ++ [Event.close])
  | r => r

/-- Deploy of the integer-channel variant: starts at BEGIN, sends
StateBeginPercent when the caller supplied a channel, otherwise substitutes a
fresh unconsumed channel, defers the close, and enters the dispatch chain. -/
def Deploy (env : Env) (d : DeployInput) (percentNil : Bool) (fuel : Nat) : Res :=
  if percentNil then closeWrap (run env fuel (initDS d percentNil) Phase.nextState)
  else
    closeWrap ((run env fuel (initDS d percentNil) Phase.nextState).pre
      [Event.send StateBeginPercent])

/-- The integer values sent on the progress channel, in order, within an
event list. -/
def sendVals (evs : List Event) : List Int :=
  evs.filterMap fun e =>
    match e with
    | .send v => some v
    | _ => none

/-- Decides whether a list of sent percentages is non-decreasing. -/
def nonDecreasing : List Int → Bool
  | [] => true
  | [_] => true
  | a :: b :: rest => decide (a ≤ b) && nonDecreasing (b :: rest)

namespace va

/-- DeploymentState of the state-struct variant: a name and a percentage. -/
structure StateVal where
  Name : String
  Percentage : Int
deriving DecidableEq

/-- Observable action of the state-struct variant: a DeploymentState value
sent on the channel, a poll, or a poll sleep. -/
inductive Ev where
  | send (v : StateVal)
  | callGet
  | sleep
deriving DecidableEq

/-- Result of the waitDeploy loop of the state-struct variant. nilDeref marks
the nil-pointer dereference the loop performs when a poll fails: the code
records the error but does not break, and the next line reads
node.ProvisionState from the nil node pointer. -/
inductive LoopResA where
  | brk (error : Option String) (pollIdx : Nat) (ev : List Ev)
  | nilDeref (error : Option String) (ev : List Ev)
  | blocked (ev : List Ev)
  | fuelOut (ev : List Ev)
deriving DecidableEq

/-- Prepends events to a loop result of the state-struct variant. -/
def LoopResA.pre (e : List Ev) : LoopResA → LoopResA
  | .brk err i ev => .brk err i (e ++ ev)
  | .nilDeref err ev => .nilDeref err (e ++ ev)
  | .blocked ev => .blocked (e ++ ev)
  | .fuelOut ev => .fuelOut (e ++ ev)

/-- The waitDeploy loop of the state-struct variant, over the poll stream,
whether the caller passed a nil channel, the remaining fuel, the next poll
index, the loop-local percentage (starting at 50), and the Error field. A
failed poll records the error and then dereferences the nil node (nilDeref);
an in-progress state bumps the percentage below 100 and sends a
DeploymentState value on the channel without any nil guard, which blocks
forever when the channel is nil. -/
def waitDeployA (polls : Nat → Except String Node) (statusNil : Bool) :
    Nat → Nat → Int → Option String → LoopResA
  | 0, _, _, _ => .fuelOut []
  | Nat.succ n, i, p, e =>
    match polls i with
    | Except.error msg => .nilDeref (some msg) [Ev.callGet]
    | Except.ok node =>
      if node.ProvisionState = Active then .brk e (i + 1) [Ev.callGet]
      else if node.ProvisionState = DeployWait ∨ node.ProvisionState = Deploying then
        let p1 : Int := if p < 99 then p + 1 else p
        if statusNil then .blocked [Ev.callGet]
        else
          (waitDeployA polls statusNil n (i + 1) p1 e).pre
            [Ev.callGet, Ev.send ⟨"WAIT_DEPLOY", p1⟩, Ev.sleep]
      else
        .brk (some ("deploy failed: node current state is: " ++ node.ProvisionState))
          (i + 1) [Ev.callGet]

end va

/-- A deployment request with no patch operations, an empty config drive and
a nil Error field, as a fresh caller constructs it. -/
def dEmpty : DeployInput :=
  { NodeUUID := "u", UpdateOpts := [], configDrive := ⟨none, none, none⟩, error := none }

/-- Happy-path poll stream: WAIT_MANAGE observes manageable at once,
WAIT_PROVIDE observes available, WAIT_DEPLOY observes deploying three times
and then active. -/
def pollsHappy : Nat → Except String Node := fun i =>
  if i = 0 then Except.ok ⟨"n0", Manageable⟩
  else if i = 1 then Except.ok ⟨"n0", Available⟩
  else if i ≤ 4 then Except.ok ⟨"n0", Deploying⟩
  else Except.ok ⟨"n0", Active⟩

/-- Happy-path remote: every call succeeds, polls as in pollsHappy. -/
def envHappy : Env :=
  { update := Except.ok ()
    changeProvisionState := fun _ => Except.ok ()
    polls := pollsHappy
    pack := fun _ => Except.ok [] }

/-- Remote on which WAIT_MANAGE succeeds at once but the WAIT_PROVIDE poll
observes the state deploying, which waitProvide recognizes neither as
available nor as cleaning. -/
def envProvideFail : Env :=
  { update := Except.ok ()
    changeProvisionState := fun _ => Except.ok ()
    polls := fun i =>
      if i = 0 then Except.ok ⟨"n0", Manageable⟩ else Except.ok ⟨"n0", "deploying"⟩
    pack := fun _ => Except.ok [] }

/-- Remote on which WAIT_MANAGE succeeds at once but the WAIT_PROVIDE poll
observes the unrecognized state enroll. -/
def envProvideEnroll : Env :=
  { update := Except.ok ()
    changeProvisionState := fun _ => Except.ok ()
    polls := fun i =>
      if i = 0 then Except.ok ⟨"n1", Manageable⟩ else Except.ok ⟨"n1", "enroll"⟩
    pack := fun _ => Except.ok [] }

/-- Remote that reports the unrecognized provision state clean failed on
every poll; every call succeeds. -/
def envWMStuck : Env :=
  { update := Except.ok ()
    changeProvisionState := fun _ => Except.ok ()
    polls := fun _ => Except.ok ⟨"n0", "clean failed"⟩
    pack := fun _ => Except.ok [] }

/-- Remote on which the provision-state change to manage fails. -/
def envManageFail : Env :=
  { update := Except.ok ()
    changeProvisionState := fun t =>
      if t = "manage" then Except.error "manage call failed" else Except.ok ()
    polls := fun _ => Except.error "unused"
    pack := fun _ => Except.ok [] }

/-- One iteration of the waitManage loop against envWMStuck: the poll is
consumed and the manage-failed error is recorded, without breaking. -/
def stuckStep (s : DS) : DS :=
  {s with
    pollIdx := s.pollIdx + 1,
    error := some ("manage failed: " ++ "n0" ++ " current state is: " ++ "clean failed")}

/-- True exactly on the event of requesting the provide provision-state
change. -/
def isProvideCall : Event → Bool
  | .callProvisionState t => t == "provide"
  | _ => false

/-- The deployment fields on entry to WAIT_MANAGE for a fresh empty request:
state WAIT_MANAGE, percent StateConfigurePercent, no polls consumed. -/
def sWM : DS :=
  { NodeUUID := "u", UpdateOpts := [], configDrive := ⟨none, none, none⟩,
    error := none, currentState := StateWaitManage,
    currentPercent := StateConfigurePercent, chanDummy := false, pollIdx := 0 }

/-- The deployment fields after the failed manage call of envManageFail. -/
def sMFail : DS :=
  { NodeUUID := "u", UpdateOpts := [], configDrive := ⟨none, none, none⟩,
    error := some "manage call failed", currentState := StateManage,
    currentPercent := 0, chanDummy := false, pollIdx := 0 }

/-- The events of the envManageFail run: three zero-percent sends, the failed
manage call, the final 100, the close. -/
def evMFail : List Event :=
  [Event.send 0, Event.send 0, Event.send 0, Event.callProvisionState "manage",
   Event.send 100, Event.close]

/-- Config drive holding only the user-data mapping with the single entry a
mapped to 1. -/
def cdW : ConfigDrive := ⟨some (.map [("a", Jval.num 1)]), none, none⟩

/-- A concrete packer used to instantiate the abstract PackDirectoryAsISO. -/
def packW : PackDirectoryAsISO := fun _ => Except.ok [0]

/-- The staged tree of cdW: only the user-data file, holding the indented
JSON serialization of the mapping. -/
def fsW : List (String × String) :=
  [("openstack/latest/user_data", "\x7b\n    \"a\": 1\n\x7d")]

/-- Prepending events does not change whether a result finished. -/
theorem Res.isFinished_pre (e : List Event) (r : Res) :
    (r.pre e).isFinished = r.isFinished := by
  cases r <;> rfl

/-- The deferred close does not change whether a result finished. -/
theorem isFinished_closeWrap (r : Res) : (closeWrap r).isFinished = r.isFinished := by
  cases r <;> rfl

/-- Events of a result with a prefix prepended. -/
theorem Res.events_pre (e : List Event) (r : Res) :
    (r.pre e).events = e ++ r.events := by
  cases r <;> rfl

/-- Events of a loop result with a prefix prepended. -/
theorem LoopRes.pre_keeps_events (e : List Event) (r : LoopRes) :
    (r.pre e).events = e ++ r.events := by
  cases r <;> rfl

/-- Inversion of a finished result of a prefixed fragment. -/
theorem Res.pre_finished (e : List Event) (x : Res) (r : Option String) (s : DS)
    (ev : List Event) (h : x.pre e = Res.finished r s ev) :
    ∃ ev2, x = Res.finished r s ev2 ∧ ev = e ++ ev2 := by
  cases x with
  | finished r2 s2 ev2 =>
    simp only [Res.pre] at h
    obtain ⟨h1, h2, h3⟩ := Res.finished.inj h
    exact ⟨ev2, by rw [h1, h2], h3.symm⟩
  | blocked ev2 => simp [Res.pre] at h
  | fuelOut ev2 => simp [Res.pre] at h

/-- Inversion of a finished result of the deferred close wrapper. -/
theorem closeWrap_finished (x : Res) (r : Option String) (s : DS) (ev : List Event)
    (h : closeWrap x = Res.finished r s ev) :
    ∃ ev0, x = Res.finished r s ev0 ∧ ev = ev0 ++ [Event.close] := by
  cases x with
  | finished r2 s2 ev2 =>
    simp only [closeWrap] at h
    obtain ⟨h1, h2, h3⟩ := Res.finished.inj h
    exact ⟨ev2, by rw [h1, h2], h3.symm⟩
  | blocked ev2 => simp [closeWrap] at h
  | fuelOut ev2 => simp [closeWrap] at h

/-- A send that was accepted carries exactly the sent percent. -/
theorem sendEv_some (v : Int) (s : DS) (ev : List Event)
    (h : sendEv v s = some ev) : ev = [Event.send v] := by
  unfold sendEv at h
  by_cases hc : s.chanDummy
  · simp [hc] at h
  · simp [hc] at h
    exact h.symm

/-- sendVals distributes over append. -/
theorem sendVals_append (a b : List Event) :
    sendVals (a ++ b) = sendVals a ++ sendVals b :=
  List.filterMap_append a b _

/-- The last element survives prepending on the left. -/
theorem getLast?_append_some {α : Type} (l₁ : List α) {l₂ : List α} {a : α}
    (h : l₂.getLast? = some a) : (l₁ ++ l₂).getLast? = some a := by
  rw [List.getLast?_append_of_ne_nil l₁ (fun hnil => by rw [hnil] at h; simp at h)]
  exact h

/-- The new state picked by dispatch keeps the Error field, never moves to
BEGIN when the source state is not BEGIN, and never re-enters configure. -/
theorem dispatch_facts (s s1 : DS) (ph1 : Phase)
    (hd : dispatch s = some (s1, ph1)) :
    s1.error = s.error ∧
    (s.currentState ≠ DeploymentState.sBegin →
      ph1 ≠ Phase.configure ∧ s1.currentState ≠ DeploymentState.sBegin) := by
  cases hc : s.currentState <;>
    simp only [dispatch, hc, Option.some.injEq, Prod.mk.injEq, reduceCtorEq] at hd
  case sBegin =>
    obtain ⟨h1, h2⟩ := hd
    subst h1
    subst h2
    exact ⟨rfl, fun hne => absurd rfl hne⟩
  all_goals
    obtain ⟨h1, h2⟩ := hd
    subst h1
    subst h2
    refine ⟨rfl, fun hne => ⟨?_, ?_⟩⟩ <;>
      simp [StateConfigure, StateManage, StateWaitManage, StateProvide,
        StateWaitProvide, StateDeploy, StateWaitDeploy, StateDone]

/-- On the remote envWMStuck every waitManage poll observes an unrecognized
state, so the loop records an error and immediately re-polls, forever: it
exhausts any fuel without exiting, and never emits a provide request. -/
theorem waitManageLoop_stuck :
    ∀ (n : Nat) (s : DS), ∃ ev, waitManageLoop envWMStuck n s = LoopRes.fuelOut ev ∧
      ev.any isProvideCall = false := by
  intro n
  induction n with
  | zero => exact fun s => ⟨[], rfl, rfl⟩
  | succ n ih =>
    intro s
    obtain ⟨ev, hev, hprov⟩ := ih (stuckStep s)
    refine ⟨Event.callGet :: ev, ?_, ?_⟩
    · have hstep : waitManageLoop envWMStuck (n + 1) s =
          (waitManageLoop envWMStuck n (stuckStep s)).pre [Event.callGet] := rfl
      rw [hstep, hev]
      rfl
    · simp [List.any_cons, hprov, isProvideCall]

/-- C1: the claim that the percentages of a successful run are non-decreasing
fails on the code. On a successful run (normal return, nil error) in which
WAIT_DEPLOY observes an in-progress state three times before active, the
channel carries 0,0,0,10,15,20,25,30,32,34,36,35,100: the transition out of
WAIT_DEPLOY sends StateDeployPercent = 35 after the ramp already sent 36.
All values do lie in 0..100 and the channel is closed exactly once, after the
final 100. -/
theorem deploy_happy_path_progress_regresses :
    (Deploy envHappy dEmpty false 40).isSuccess = true ∧
    sendVals (Deploy envHappy dEmpty false 40).events =
      [0, 0, 0, 10, 15, 20, 25, 30, 32, 34, 36, 35, 100] ∧
    nonDecreasing [0, 0, 0, 10, 15, 20, 25, 30, 32, 34, 36, 35, 100] = false ∧
    (Deploy envHappy dEmpty false 40).events.getLast? = some Event.close ∧
    (Deploy envHappy dEmpty false 40).events.count Event.close = 1 :=
  ⟨by decide, by decide, by decide, by decide, by decide⟩

/-- C3: an unexpected provision state observed during WAIT_PROVIDE is not
recorded on the instance: the run returns the provide-failed error directly
from waitProvide, the Error field stays nil, and the dispatcher never reaches
the ERROR path, so the final percentage 100 is never sent (the last value
sent is 20). -/
theorem waitProvide_error_bypasses_error_state :
    (Deploy envProvideFail dEmpty false 30).isFinished = true ∧
    (Deploy envProvideFail dEmpty false 30).retError =
      some "provide failed, n0 current state is: deploying" ∧
    (Deploy envProvideFail dEmpty false 30).finalError = none ∧
    (sendVals (Deploy envProvideFail dEmpty false 30).events).getLast? = some 20 :=
  ⟨by decide, by decide, by decide, by decide⟩

/-- C10, counterexample: a run that terminates with an error (the
provide-failed error returned from WAIT_PROVIDE) whose last value sent before
the close carries the percentage 20, not 100. -/
theorem error_run_last_send_below_100 :
    (Deploy envProvideEnroll dEmpty false 30).isFinished = true ∧
    (Deploy envProvideEnroll dEmpty false 30).retError.isSome = true ∧
    (sendVals (Deploy envProvideEnroll dEmpty false 30).events).getLast? = some 20 ∧
    (20 : Int) ≠ 100 :=
  ⟨by decide, by decide, by decide, by decide⟩

/-- C7: serialization of a literal user-data payload never fails and returns
exactly the bytes of the string, with no re-encoding, no trimming, and no
other transformation. -/
theorem userDataString_ToUserData_exact (s : String) :
    UserDataBuilder.ToUserData (.str s) = Except.ok s := rfl

/-- C8: in the state-struct variant, a failed poll during WAIT_DEPLOY does
not terminate the loop: the code records the error and then reads
ProvisionState from the nil node pointer (nilDeref). In the integer-channel
variant, a failed poll breaks immediately with the error recorded and the
node value never inspected. -/
theorem waitDeploy_poll_error_handling :
    va.waitDeployA (fun _ => Except.error "transport failed") false 5 0 50 none =
      va.LoopResA.nilDeref (some "transport failed") [va.Ev.callGet] ∧
    (∀ (n : Nat) (e : String) (env0 : Env) (s : DS),
      waitDeployLoop {env0 with polls := fun _ => Except.error e} (n + 1) s =
        LoopRes.brk {s with pollIdx := s.pollIdx + 1, error := some e}
          [Event.callGet]) :=
  ⟨by decide, fun _ _ _ _ => rfl⟩

/-- C9: a run started with a nil progress channel does attempt channel sends
and blocks forever. The integer-channel Deploy substitutes a fresh channel no
one reads and blocks on its very first percent send; the state-struct
waitDeploy sends on the nil channel without a guard when a poll observes an
in-progress state. -/
theorem nil_channel_run_blocks :
    (∀ (n : Nat) (env : Env) (d : DeployInput),
      Deploy env d true (n + 2) = Res.blocked []) ∧
    (∀ (n i : Nat) (p : Int) (e : Option String),
      va.waitDeployA (fun _ => Except.ok ⟨"n0", Deploying⟩) true (n + 1) i p e =
        va.LoopResA.blocked [va.Ev.callGet]) := by
  constructor
  · intro n env d
    obtain ⟨u, opts, cd, err⟩ := d
    cases err <;> rfl
  · intro n i p e
    rfl

/-- The percent ramp of the waitDeploy loop: starting from the current
percent, the percentages the loop sends are strictly increasing, and every
one of them is strictly below 100, for any remote, any fuel and any entry
state. -/
theorem waitDeployLoop_ramp (env : Env) :
    ∀ (n : Nat) (s : DS),
      List.Chain' (· < ·) (s.currentPercent :: sendVals (waitDeployLoop env n s).events) ∧
      ∀ v ∈ sendVals (waitDeployLoop env n s).events, v < 100 := by
  intro n
  induction n with
  | zero =>
    intro s
    exact ⟨by simp [waitDeployLoop, LoopRes.events, sendVals], by
      simp [waitDeployLoop, LoopRes.events, sendVals]⟩
  | succ n ih =>
    intro s
    cases hp : env.polls s.pollIdx with
    | error e =>
      exact ⟨by simp [waitDeployLoop, hp, LoopRes.events, sendVals], by
        simp [waitDeployLoop, hp, LoopRes.events, sendVals]⟩
    | ok node =>
      by_cases h1 : node.ProvisionState = Active
      · exact ⟨by simp [waitDeployLoop, hp, h1, LoopRes.events, sendVals], by
          simp [waitDeployLoop, hp, h1, LoopRes.events, sendVals]⟩
      · by_cases h2 : node.ProvisionState = DeployWait ∨ node.ProvisionState = Deploying
        · by_cases h3 : s.currentPercent < StateWaitDeployPercent
          · cases hc : s.chanDummy with
            | true =>
              exact ⟨by simp [waitDeployLoop, hp, h1, h2, h3, hc, LoopRes.events,
                sendVals], by simp [waitDeployLoop, hp, h1, h2, h3, hc,
                  LoopRes.events, sendVals]⟩
            | false =>
              have hres : waitDeployLoop env (n + 1) s =
                  (waitDeployLoop env n
                    {s with pollIdx := s.pollIdx + 1, currentPercent := s.currentPercent + 2}).pre
                    [Event.callGet, Event.send (s.currentPercent + 2), Event.sleep] := by
                simp [waitDeployLoop, hp, h1, h2, h3, hc]
              obtain ⟨ihc, ihb⟩ :=
                ih {s with pollIdx := s.pollIdx + 1, currentPercent := s.currentPercent + 2}
              have hpref : sendVals [Event.callGet, Event.send (s.currentPercent + 2),
                  Event.sleep] = [s.currentPercent + 2] := rfl
              rw [hres, LoopRes.pre_keeps_events, sendVals_append, hpref,
                List.singleton_append]
              constructor
              · refine List.chain'_cons.mpr ⟨by omega, ?_⟩
                simpa using ihc
              · intro v hv
                rcases List.mem_cons.mp hv with hv1 | hv2
                · simp only [StateWaitDeployPercent] at h3
                  omega
                · exact ihb v hv2
          · have hres : waitDeployLoop env (n + 1) s =
                (waitDeployLoop env n {s with pollIdx := s.pollIdx + 1}).pre
                  [Event.callGet, Event.sleep] := by
              simp [waitDeployLoop, hp, h1, h2, h3]
            obtain ⟨ihc, ihb⟩ := ih {s with pollIdx := s.pollIdx + 1}
            have hpref : sendVals [Event.callGet, Event.sleep] = [] := rfl
            rw [hres, LoopRes.pre_keeps_events, sendVals_append, hpref, List.nil_append]
            exact ⟨by simpa using ihc, ihb⟩
        · exact ⟨by simp [waitDeployLoop, hp, h1, h2, LoopRes.events, sendVals], by
            simp [waitDeployLoop, hp, h1, h2, LoopRes.events, sendVals]⟩

/-- Inversion of a brk loop result of a prefixed fragment. -/
theorem LoopRes.pre_brk (e : List Event) (x : LoopRes) (s1 : DS) (ev : List Event)
    (h : x.pre e = LoopRes.brk s1 ev) :
    ∃ ev2, x = LoopRes.brk s1 ev2 ∧ ev = e ++ ev2 := by
  cases x with
  | brk s2 ev2 =>
    simp only [LoopRes.pre] at h
    obtain ⟨h1, h2⟩ := LoopRes.brk.inj h
    exact ⟨ev2, by rw [h1], h2.symm⟩
  | ret r2 s2 ev2 => simp [LoopRes.pre] at h
  | blocked ev2 => simp [LoopRes.pre] at h
  | fuelOut ev2 => simp [LoopRes.pre] at h

/-- Inversion of a ret loop result of a prefixed fragment. -/
theorem LoopRes.pre_ret (e : List Event) (x : LoopRes) (r : Option String) (s1 : DS)
    (ev : List Event) (h : x.pre e = LoopRes.ret r s1 ev) :
    ∃ ev2, x = LoopRes.ret r s1 ev2 ∧ ev = e ++ ev2 := by
  cases x with
  | brk s2 ev2 => simp [LoopRes.pre] at h
  | ret r2 s2 ev2 =>
    simp only [LoopRes.pre] at h
    obtain ⟨h1, h2, h3⟩ := LoopRes.ret.inj h
    exact ⟨ev2, by rw [h1, h2], h3.symm⟩
  | blocked ev2 => simp [LoopRes.pre] at h
  | fuelOut ev2 => simp [LoopRes.pre] at h

/-- The waitManage loop emits no patch call. -/
theorem waitManageLoop_no_update (env : Env) :
    ∀ (n : Nat) (s : DS), Event.callUpdate ∉ (waitManageLoop env n s).events := by
  intro n
  induction n with
  | zero => intro s; simp [waitManageLoop, LoopRes.events]
  | succ n ih =>
    intro s
    cases hp : env.polls s.pollIdx with
    | error e => simp [waitManageLoop, hp, LoopRes.events]
    | ok node =>
      by_cases h1 : node.ProvisionState = Manageable
      · simp [waitManageLoop, hp, h1, LoopRes.events]
      · by_cases h2 : node.ProvisionState = Verifying
        · have hres : waitManageLoop env (n + 1) s =
              (waitManageLoop env n {s with pollIdx := s.pollIdx + 1}).pre
                [Event.callGet, Event.sleep] := by
            simp [waitManageLoop, hp, h1, h2, Manageable, Verifying]
          intro hmem
          rw [hres, LoopRes.pre_keeps_events, List.mem_append] at hmem
          rcases hmem with hmem | hmem
          · simp at hmem
          · exact ih _ hmem
        · have hres : waitManageLoop env (n + 1) s =
              (waitManageLoop env n
                {s with pollIdx := s.pollIdx + 1,
                        error := some ("manage failed: " ++ node.Name ++
                          " current state is: " ++ node.ProvisionState)}).pre
                [Event.callGet] := by
            simp [waitManageLoop, hp, h1, h2]
          intro hmem
          rw [hres, LoopRes.pre_keeps_events, List.mem_append] at hmem
          rcases hmem with hmem | hmem
          · simp at hmem
          · exact ih _ hmem

/-- The waitProvide loop emits no patch call. -/
theorem waitProvideLoop_no_update (env : Env) :
    ∀ (n : Nat) (s : DS), Event.callUpdate ∉ (waitProvideLoop env n s).events := by
  intro n
  induction n with
  | zero => intro s; simp [waitProvideLoop, LoopRes.events]
  | succ n ih =>
    intro s
    cases hp : env.polls s.pollIdx with
    | error e => simp [waitProvideLoop, hp, LoopRes.events]
    | ok node =>
      by_cases h1 : node.ProvisionState = Available
      · simp [waitProvideLoop, hp, h1, LoopRes.events]
      · by_cases h2 : node.ProvisionState = Cleaning
        · have hres : waitProvideLoop env (n + 1) s =
              (waitProvideLoop env n {s with pollIdx := s.pollIdx + 1}).pre
                [Event.callGet, Event.sleep] := by
            simp [waitProvideLoop, hp, h1, h2, Available, Cleaning]
          intro hmem
          rw [hres, LoopRes.pre_keeps_events, List.mem_append] at hmem
          rcases hmem with hmem | hmem
          · simp at hmem
          · exact ih _ hmem
        · simp [waitProvideLoop, hp, h1, h2, LoopRes.events]

/-- The waitDeploy loop emits no patch call. -/
theorem waitDeployLoop_no_update (env : Env) :
    ∀ (n : Nat) (s : DS), Event.callUpdate ∉ (waitDeployLoop env n s).events := by
  intro n
  induction n with
  | zero => intro s; simp [waitDeployLoop, LoopRes.events]
  | succ n ih =>
    intro s
    cases hp : env.polls s.pollIdx with
    | error e => simp [waitDeployLoop, hp, LoopRes.events]
    | ok node =>
      by_cases h1 : node.ProvisionState = Active
      · simp [waitDeployLoop, hp, h1, LoopRes.events]
      · by_cases h2 : node.ProvisionState = DeployWait ∨ node.ProvisionState = Deploying
        · by_cases h3 : s.currentPercent < StateWaitDeployPercent
          · cases hc : s.chanDummy with
            | true => simp [waitDeployLoop, hp, h1, h2, h3, hc, LoopRes.events]
            | false =>
              have hres : waitDeployLoop env (n + 1) s =
                  (waitDeployLoop env n
                    {s with pollIdx := s.pollIdx + 1, currentPercent := s.currentPercent + 2}).pre
                    [Event.callGet, Event.send (s.currentPercent + 2), Event.sleep] := by
                simp [waitDeployLoop, hp, h1, h2, h3, hc]
              intro hmem
              rw [hres, LoopRes.pre_keeps_events, List.mem_append] at hmem
              rcases hmem with hmem | hmem
              · simp at hmem
              · exact ih _ hmem
          · have hres : waitDeployLoop env (n + 1) s =
                (waitDeployLoop env n {s with pollIdx := s.pollIdx + 1}).pre
                  [Event.callGet, Event.sleep] := by
              simp [waitDeployLoop, hp, h1, h2, h3]
            intro hmem
            rw [hres, LoopRes.pre_keeps_events, List.mem_append] at hmem
            rcases hmem with hmem | hmem
            · simp at hmem
            · exact ih _ hmem
        · simp [waitDeployLoop, hp, h1, h2, LoopRes.events]

/-- Breaking out of the waitManage loop does not change the current state. -/
theorem waitManageLoop_brk_state (env : Env) :
    ∀ (n : Nat) (s s1 : DS) (ev : List Event),
      waitManageLoop env n s = LoopRes.brk s1 ev → s1.currentState = s.currentState := by
  intro n
  induction n with
  | zero => intro s s1 ev h; simp [waitManageLoop] at h
  | succ n ih =>
    intro s s1 ev h
    cases hp : env.polls s.pollIdx with
    | error e =>
      simp only [waitManageLoop, hp] at h
      obtain ⟨h1, h2⟩ := LoopRes.brk.inj h
      rw [← h1]
    | ok node =>
      by_cases h1 : node.ProvisionState = Manageable
      · simp only [waitManageLoop, hp, h1, if_pos] at h
        obtain ⟨h2, h3⟩ := LoopRes.brk.inj h
        rw [← h2]
      · by_cases h2 : node.ProvisionState = Verifying
        · have hres : waitManageLoop env (n + 1) s =
              (waitManageLoop env n {s with pollIdx := s.pollIdx + 1}).pre
                [Event.callGet, Event.sleep] := by
            simp [waitManageLoop, hp, h1, h2, Manageable, Verifying]
          rw [hres] at h
          obtain ⟨ev2, hx, hev⟩ := LoopRes.pre_brk _ _ _ _ h
          exact (ih _ _ _ hx).trans rfl
        · have hres : waitManageLoop env (n + 1) s =
              (waitManageLoop env n
                {s with pollIdx := s.pollIdx + 1,
                        error := some ("manage failed: " ++ node.Name ++
                          " current state is: " ++ node.ProvisionState)}).pre
                [Event.callGet] := by
            simp [waitManageLoop, hp, h1, h2]
          rw [hres] at h
          obtain ⟨ev2, hx, hev⟩ := LoopRes.pre_brk _ _ _ _ h
          exact (ih _ _ _ hx).trans rfl

/-- Breaking out of the waitProvide loop does not change the current state. -/
theorem waitProvideLoop_brk_state (env : Env) :
    ∀ (n : Nat) (s s1 : DS) (ev : List Event),
      waitProvideLoop env n s = LoopRes.brk s1 ev → s1.currentState = s.currentState := by
  intro n
  induction n with
  | zero => intro s s1 ev h; simp [waitProvideLoop] at h
  | succ n ih =>
    intro s s1 ev h
    cases hp : env.polls s.pollIdx with
    | error e =>
      simp only [waitProvideLoop, hp] at h
      obtain ⟨h1, h2⟩ := LoopRes.brk.inj h
      rw [← h1]
    | ok node =>
      by_cases h1 : node.ProvisionState = Available
      · simp only [waitProvideLoop, hp, h1, if_pos] at h
        obtain ⟨h2, h3⟩ := LoopRes.brk.inj h
        rw [← h2]
      · by_cases h2 : node.ProvisionState = Cleaning
        · have hres : waitProvideLoop env (n + 1) s =
              (waitProvideLoop env n {s with pollIdx := s.pollIdx + 1}).pre
                [Event.callGet, Event.sleep] := by
            simp [waitProvideLoop, hp, h1, h2, Available, Cleaning]
          rw [hres] at h
          obtain ⟨ev2, hx, hev⟩ := LoopRes.pre_brk _ _ _ _ h
          exact (ih _ _ _ hx).trans rfl
        · simp [waitProvideLoop, hp, h1, h2] at h

/-- Breaking out of the waitDeploy loop does not change the current state. -/
theorem waitDeployLoop_brk_state (env : Env) :
    ∀ (n : Nat) (s s1 : DS) (ev : List Event),
      waitDeployLoop env n s = LoopRes.brk s1 ev → s1.currentState = s.currentState := by
  intro n
  induction n with
  | zero => intro s s1 ev h; simp [waitDeployLoop] at h
  | succ n ih =>
    intro s s1 ev h
    cases hp : env.polls s.pollIdx with
    | error e =>
      simp only [waitDeployLoop, hp] at h
      obtain ⟨h1, h2⟩ := LoopRes.brk.inj h
      rw [← h1]
    | ok node =>
      by_cases h1 : node.ProvisionState = Active
      · simp only [waitDeployLoop, hp, h1, if_pos] at h
        obtain ⟨h2, h3⟩ := LoopRes.brk.inj h
        rw [← h2]
      · by_cases h2 : node.ProvisionState = DeployWait ∨ node.ProvisionState = Deploying
        · by_cases h3 : s.currentPercent < StateWaitDeployPercent
          · cases hc : s.chanDummy with
            | true => simp [waitDeployLoop, hp, h1, h2, h3, hc] at h
            | false =>
              have hres : waitDeployLoop env (n + 1) s =
                  (waitDeployLoop env n
                    {s with pollIdx := s.pollIdx + 1, currentPercent := s.currentPercent + 2}).pre
                    [Event.callGet, Event.send (s.currentPercent + 2), Event.sleep] := by
                simp [waitDeployLoop, hp, h1, h2, h3, hc]
              rw [hres] at h
              obtain ⟨ev2, hx, hev⟩ := LoopRes.pre_brk _ _ _ _ h
              exact (ih _ _ _ hx).trans rfl
          · have hres : waitDeployLoop env (n + 1) s =
                (waitDeployLoop env n {s with pollIdx := s.pollIdx + 1}).pre
                  [Event.callGet, Event.sleep] := by
              simp [waitDeployLoop, hp, h1, h2, h3]
            rw [hres] at h
            obtain ⟨ev2, hx, hev⟩ := LoopRes.pre_brk _ _ _ _ h
            exact (ih _ _ _ hx).trans rfl
        · have hres : waitDeployLoop env (n + 1) s =
              LoopRes.brk
                {s with pollIdx := s.pollIdx + 1,
                        error := some ("deploy failed: " ++ node.Name ++
                          " current state is: " ++ node.ProvisionState)}
                [Event.callGet] := by
            simp [waitDeployLoop, hp, h1, h2]
          rw [hres] at h
          obtain ⟨h4, h5⟩ := LoopRes.brk.inj h
          rw [← h4]

/-- Away from the configure phase and the BEGIN state, the dispatch chain
never performs the patch call. -/
theorem run_no_update (env : Env) :
    ∀ (n : Nat) (s : DS) (ph : Phase), ph ≠ Phase.configure →
      s.currentState ≠ DeploymentState.sBegin →
      Event.callUpdate ∉ (run env n s ph).events := by
  intro n
  induction n with
  | zero => intro s ph _ _; simp [run, Res.events]
  | succ n ih =>
    intro s ph hph hst
    cases ph with
    | configure => exact absurd rfl hph
    | nextState =>
      cases herr : s.error with
      | some e =>
        have hres : run env (n + 1) s Phase.nextState = run env n s Phase.done := by
          simp [run, herr]
        rw [hres]
        exact ih s .done (by simp) hst
      | none =>
        cases hd : dispatch s with
        | none =>
          have hres : run env (n + 1) s Phase.nextState =
              Res.finished (some "unknown state") s [] := by simp [run, herr, hd]
          rw [hres]
          simp [Res.events]
        | some pair =>
          obtain ⟨s1, ph1⟩ := pair
          obtain ⟨herr1, hfacts⟩ := dispatch_facts s s1 ph1 hd
          obtain ⟨hph1, hst1⟩ := hfacts hst
          cases hse : sendEv s1.currentPercent s1 with
          | none =>
            have hres : run env (n + 1) s Phase.nextState = Res.blocked [] := by
              simp [run, herr, hd, hse]
            rw [hres]
            simp [Res.events]
          | some ev1 =>
            have hres : run env (n + 1) s Phase.nextState =
                (run env n s1 ph1).pre ev1 := by simp [run, herr, hd, hse]
            rw [hres, Res.events_pre]
            intro hmem
            rcases List.mem_append.mp hmem with hmem | hmem
            · rw [sendEv_some _ _ _ hse] at hmem
              simp at hmem
            · exact ih s1 ph1 hph1 hst1 hmem
    | manage =>
      cases hcall : env.changeProvisionState "manage" with
      | error e =>
        have hres : run env (n + 1) s Phase.manage =
            (run env n {s with error := some e} Phase.nextState).pre
              [Event.callProvisionState "manage"] := by simp [run, hcall]
        rw [hres, Res.events_pre]
        intro hmem
        rcases List.mem_append.mp hmem with hmem | hmem
        · simp at hmem
        · exact ih {s with error := some e} .nextState (by simp) hst hmem
      | ok u =>
        have hres : run env (n + 1) s Phase.manage =
            (run env n s Phase.nextState).pre
              [Event.callProvisionState "manage"] := by simp [run, hcall]
        rw [hres, Res.events_pre]
        intro hmem
        rcases List.mem_append.mp hmem with hmem | hmem
        · simp at hmem
        · exact ih _ .nextState (by simp) hst hmem
    | provide =>
      cases hcall : env.changeProvisionState "provide" with
      | error e =>
        have hres : run env (n + 1) s Phase.provide =
            (run env n {s with error := some e} Phase.nextState).pre
              [Event.callProvisionState "provide"] := by simp [run, hcall]
        rw [hres, Res.events_pre]
        intro hmem
        rcases List.mem_append.mp hmem with hmem | hmem
        · simp at hmem
        · exact ih {s with error := some e} .nextState (by simp) hst hmem
      | ok u =>
        have hres : run env (n + 1) s Phase.provide =
            (run env n {s with error := none} Phase.nextState).pre
              [Event.callProvisionState "provide"] := by simp [run, hcall]
        rw [hres, Res.events_pre]
        intro hmem
        rcases List.mem_append.mp hmem with hmem | hmem
        · simp at hmem
        · exact ih {s with error := none} .nextState (by simp) hst hmem
    | deploy =>
      cases hcd : ConfigDrive.ToConfigDrive env.pack s.configDrive with
      | error e =>
        have hres : run env (n + 1) s Phase.deploy =
            run env n {s with error := some e} Phase.nextState := by simp [run, hcd]
        rw [hres]
        exact ih _ .nextState (by simp) hst
      | ok cd =>
        cases hcall : env.changeProvisionState "active" with
        | error e =>
          have hres : run env (n + 1) s Phase.deploy =
              (run env n {s with error := some e} Phase.nextState).pre
                [Event.callProvisionState "active"] := by simp [run, hcd, hcall]
          rw [hres, Res.events_pre]
          intro hmem
          rcases List.mem_append.mp hmem with hmem | hmem
          · simp at hmem
          · exact ih {s with error := some e} .nextState (by simp) hst hmem
        | ok u =>
          have hres : run env (n + 1) s Phase.deploy =
              (run env n {s with error := none} Phase.nextState).pre
                [Event.callProvisionState "active"] := by simp [run, hcd, hcall]
          rw [hres, Res.events_pre]
          intro hmem
          rcases List.mem_append.mp hmem with hmem | hmem
          · simp at hmem
          · exact ih {s with error := none} .nextState (by simp) hst hmem
    | waitManage =>
      cases hl : waitManageLoop env n s with
      | brk s1 ev1 =>
        have hres : run env (n + 1) s Phase.waitManage =
            (run env n s1 Phase.nextState).pre ev1 := by simp [run, hl]
        rw [hres, Res.events_pre]
        intro hmem
        rcases List.mem_append.mp hmem with hmem | hmem
        · exact absurd (show Event.callUpdate ∈ (waitManageLoop env n s).events by
            rw [hl]; exact hmem) (waitManageLoop_no_update env n s)
        · have hst1 : s1.currentState ≠ DeploymentState.sBegin := by
            rw [waitManageLoop_brk_state env n s s1 ev1 hl]
            exact hst
          exact ih s1 .nextState (by simp) hst1 hmem
      | ret r s1 ev1 =>
        have hres : run env (n + 1) s Phase.waitManage = Res.finished r s1 ev1 := by
          simp [run, hl]
        rw [hres]
        intro hmem
        exact absurd (show Event.callUpdate ∈ (waitManageLoop env n s).events by
          rw [hl]; exact hmem) (waitManageLoop_no_update env n s)
      | blocked ev1 =>
        have hres : run env (n + 1) s Phase.waitManage = Res.blocked ev1 := by
          simp [run, hl]
        rw [hres]
        intro hmem
        exact absurd (show Event.callUpdate ∈ (waitManageLoop env n s).events by
          rw [hl]; exact hmem) (waitManageLoop_no_update env n s)
      | fuelOut ev1 =>
        have hres : run env (n + 1) s Phase.waitManage = Res.fuelOut ev1 := by
          simp [run, hl]
        rw [hres]
        intro hmem
        exact absurd (show Event.callUpdate ∈ (waitManageLoop env n s).events by
          rw [hl]; exact hmem) (waitManageLoop_no_update env n s)
    | waitProvide =>
      cases hl : waitProvideLoop env n s with
      | brk s1 ev1 =>
        have hres : run env (n + 1) s Phase.waitProvide =
            (run env n s1 Phase.nextState).pre ev1 := by simp [run, hl]
        rw [hres, Res.events_pre]
        intro hmem
        rcases List.mem_append.mp hmem with hmem | hmem
        · exact absurd (show Event.callUpdate ∈ (waitProvideLoop env n s).events by
            rw [hl]; exact hmem) (waitProvideLoop_no_update env n s)
        · have hst1 : s1.currentState ≠ DeploymentState.sBegin := by
            rw [waitProvideLoop_brk_state env n s s1 ev1 hl]
            exact hst
          exact ih s1 .nextState (by simp) hst1 hmem
      | ret r s1 ev1 =>
        have hres : run env (n + 1) s Phase.waitProvide = Res.finished r s1 ev1 := by
          simp [run, hl]
        rw [hres]
        intro hmem
        exact absurd (show Event.callUpdate ∈ (waitProvideLoop env n s).events by
          rw [hl]; exact hmem) (waitProvideLoop_no_update env n s)
      | blocked ev1 =>
        have hres : run env (n + 1) s Phase.waitProvide = Res.blocked ev1 := by
          simp [run, hl]
        rw [hres]
        intro hmem
        exact absurd (show Event.callUpdate ∈ (waitProvideLoop env n s).events by
          rw [hl]; exact hmem) (waitProvideLoop_no_update env n s)
      | fuelOut ev1 =>
        have hres : run env (n + 1) s Phase.waitProvide = Res.fuelOut ev1 := by
          simp [run, hl]
        rw [hres]
        intro hmem
        exact absurd (show Event.callUpdate ∈ (waitProvideLoop env n s).events by
          rw [hl]; exact hmem) (waitProvideLoop_no_update env n s)
    | waitDeploy =>
      cases hl : waitDeployLoop env n s with
      | brk s1 ev1 =>
        have hres : run env (n + 1) s Phase.waitDeploy =
            (run env n s1 Phase.nextState).pre ev1 := by simp [run, hl]
        rw [hres, Res.events_pre]
        intro hmem
        rcases List.mem_append.mp hmem with hmem | hmem
        · exact absurd (show Event.callUpdate ∈ (waitDeployLoop env n s).events by
            rw [hl]; exact hmem) (waitDeployLoop_no_update env n s)
        · have hst1 : s1.currentState ≠ DeploymentState.sBegin := by
            rw [waitDeployLoop_brk_state env n s s1 ev1 hl]
            exact hst
          exact ih s1 .nextState (by simp) hst1 hmem
      | ret r s1 ev1 =>
        have hres : run env (n + 1) s Phase.waitDeploy = Res.finished r s1 ev1 := by
          simp [run, hl]
        rw [hres]
        intro hmem
        exact absurd (show Event.callUpdate ∈ (waitDeployLoop env n s).events by
          rw [hl]; exact hmem) (waitDeployLoop_no_update env n s)
      | blocked ev1 =>
        have hres : run env (n + 1) s Phase.waitDeploy = Res.blocked ev1 := by
          simp [run, hl]
        rw [hres]
        intro hmem
        exact absurd (show Event.callUpdate ∈ (waitDeployLoop env n s).events by
          rw [hl]; exact hmem) (waitDeployLoop_no_update env n s)
      | fuelOut ev1 =>
        have hres : run env (n + 1) s Phase.waitDeploy = Res.fuelOut ev1 := by
          simp [run, hl]
        rw [hres]
        intro hmem
        exact absurd (show Event.callUpdate ∈ (waitDeployLoop env n s).events by
          rw [hl]; exact hmem) (waitDeployLoop_no_update env n s)
    | done =>
      cases hse : sendEv StateDonePercent s with
      | none =>
        have hres : run env (n + 1) s Phase.done = Res.blocked [] := by simp [run, hse]
        rw [hres]
        simp [Res.events]
      | some ev1 =>
        have hres : run env (n + 1) s Phase.done = Res.finished s.error s ev1 := by
          simp [run, hse]
        rw [hres, sendEv_some _ _ _ hse]
        simp [Res.events]

/-- The waitManage loop never returns from the enclosing function directly. -/
theorem waitManageLoop_no_ret (env : Env) :
    ∀ (n : Nat) (s : DS) (r : Option String) (s1 : DS) (ev : List Event),
      waitManageLoop env n s ≠ LoopRes.ret r s1 ev := by
  intro n
  induction n with
  | zero => intro s r s1 ev h; simp [waitManageLoop] at h
  | succ n ih =>
    intro s r s1 ev h
    cases hp : env.polls s.pollIdx with
    | error e =>
      simp only [waitManageLoop, hp] at h
      exact LoopRes.noConfusion h
    | ok node =>
      by_cases h1 : node.ProvisionState = Manageable
      · simp only [waitManageLoop, hp, if_pos h1] at h
        exact LoopRes.noConfusion h
      · by_cases h2 : node.ProvisionState = Verifying
        · have hres : waitManageLoop env (n + 1) s =
              (waitManageLoop env n {s with pollIdx := s.pollIdx + 1}).pre
                [Event.callGet, Event.sleep] := by
            simp [waitManageLoop, hp, h1, h2, Manageable, Verifying]
          rw [hres] at h
          obtain ⟨ev2, hx, hev⟩ := LoopRes.pre_ret _ _ _ _ _ h
          exact ih _ _ _ _ hx
        · have hres : waitManageLoop env (n + 1) s =
              (waitManageLoop env n
                {s with pollIdx := s.pollIdx + 1,
                        error := some ("manage failed: " ++ node.Name ++
                          " current state is: " ++ node.ProvisionState)}).pre
                [Event.callGet] := by
            simp [waitManageLoop, hp, h1, h2]
          rw [hres] at h
          obtain ⟨ev2, hx, hev⟩ := LoopRes.pre_ret _ _ _ _ _ h
          exact ih _ _ _ _ hx

/-- The waitDeploy loop never returns from the enclosing function directly. -/
theorem waitDeployLoop_no_ret (env : Env) :
    ∀ (n : Nat) (s : DS) (r : Option String) (s1 : DS) (ev : List Event),
      waitDeployLoop env n s ≠ LoopRes.ret r s1 ev := by
  intro n
  induction n with
  | zero => intro s r s1 ev h; simp [waitDeployLoop] at h
  | succ n ih =>
    intro s r s1 ev h
    cases hp : env.polls s.pollIdx with
    | error e =>
      simp only [waitDeployLoop, hp] at h
      exact LoopRes.noConfusion h
    | ok node =>
      by_cases h1 : node.ProvisionState = Active
      · simp only [waitDeployLoop, hp, if_pos h1] at h
        exact LoopRes.noConfusion h
      · by_cases h2 : node.ProvisionState = DeployWait ∨ node.ProvisionState = Deploying
        · by_cases h3 : s.currentPercent < StateWaitDeployPercent
          · cases hc : s.chanDummy with
            | true =>
              have hres : waitDeployLoop env (n + 1) s =
                  LoopRes.blocked [Event.callGet] := by
                simp [waitDeployLoop, hp, h1, h2, h3, hc]
              rw [hres] at h
              exact LoopRes.noConfusion h
            | false =>
              have hres : waitDeployLoop env (n + 1) s =
                  (waitDeployLoop env n
                    {s with pollIdx := s.pollIdx + 1, currentPercent := s.currentPercent + 2}).pre
                    [Event.callGet, Event.send (s.currentPercent + 2), Event.sleep] := by
                simp [waitDeployLoop, hp, h1, h2, h3, hc]
              rw [hres] at h
              obtain ⟨ev2, hx, hev⟩ := LoopRes.pre_ret _ _ _ _ _ h
              exact ih _ _ _ _ hx
          · have hres : waitDeployLoop env (n + 1) s =
                (waitDeployLoop env n {s with pollIdx := s.pollIdx + 1}).pre
                  [Event.callGet, Event.sleep] := by
              simp [waitDeployLoop, hp, h1, h2, h3]
            rw [hres] at h
            obtain ⟨ev2, hx, hev⟩ := LoopRes.pre_ret _ _ _ _ _ h
            exact ih _ _ _ _ hx
        · have hres : waitDeployLoop env (n + 1) s =
              LoopRes.brk
                {s with pollIdx := s.pollIdx + 1,
                        error := some ("deploy failed: " ++ node.Name ++
                          " current state is: " ++ node.ProvisionState)}
                [Event.callGet] := by
            simp [waitDeployLoop, hp, h1, h2]
          rw [hres] at h
          exact LoopRes.noConfusion h

/-- A direct return from the waitProvide loop leaves the Error field exactly
as it was on loop entry: the provide-failed error is never recorded. -/
theorem waitProvideLoop_ret_error (env : Env) :
    ∀ (n : Nat) (s : DS) (r : Option String) (s1 : DS) (ev : List Event),
      waitProvideLoop env n s = LoopRes.ret r s1 ev → s1.error = s.error := by
  intro n
  induction n with
  | zero => intro s r s1 ev h; simp [waitProvideLoop] at h
  | succ n ih =>
    intro s r s1 ev h
    cases hp : env.polls s.pollIdx with
    | error e =>
      simp only [waitProvideLoop, hp] at h
      exact LoopRes.noConfusion h
    | ok node =>
      by_cases h1 : node.ProvisionState = Available
      · simp only [waitProvideLoop, hp, if_pos h1] at h
        exact LoopRes.noConfusion h
      · by_cases h2 : node.ProvisionState = Cleaning
        · have hres : waitProvideLoop env (n + 1) s =
              (waitProvideLoop env n {s with pollIdx := s.pollIdx + 1}).pre
                [Event.callGet, Event.sleep] := by
            simp [waitProvideLoop, hp, h1, h2, Available, Cleaning]
          rw [hres] at h
          obtain ⟨ev2, hx, hev⟩ := LoopRes.pre_ret _ _ _ _ _ h
          exact (ih _ _ _ _ hx).trans rfl
        · have hres : waitProvideLoop env (n + 1) s =
              LoopRes.ret (some ("provide failed, " ++ node.Name ++
                  " current state is: " ++ node.ProvisionState))
                {s with pollIdx := s.pollIdx + 1} [Event.callGet] := by
            simp [waitProvideLoop, hp, h1, h2]
          rw [hres] at h
          obtain ⟨hr, hs, hev⟩ := LoopRes.ret.inj h
          rw [← hs]

/-- In every finished fragment whose final Error field is set, the last value
sent on the channel is StateDonePercent: the only way to finish with a
recorded error is through done, which sends it. The waitProvide proviso keeps
the statement invariant under the direct return, which can only happen with a
clean Error field. -/
theorem run_finished_error_last_send (env : Env) :
    ∀ (n : Nat) (s : DS) (ph : Phase) (r : Option String) (s1 : DS) (ev : List Event),
      run env n s ph = Res.finished r s1 ev → s1.error.isSome = true →
      (ph = Phase.waitProvide → s.error = none) →
      (sendVals ev).getLast? = some StateDonePercent := by
  intro n
  induction n with
  | zero => intro s ph r s1 ev h _ _; simp [run] at h
  | succ n ih =>
    intro s ph r s1 ev h herr hwp
    cases ph with
    | nextState =>
      cases he : s.error with
      | some e =>
        have hres : run env (n + 1) s Phase.nextState = run env n s Phase.done := by
          simp [run, he]
        rw [hres] at h
        exact ih s .done r s1 ev h herr (by simp)
      | none =>
        cases hd : dispatch s with
        | none =>
          have hres : run env (n + 1) s Phase.nextState =
              Res.finished (some "unknown state") s [] := by simp [run, he, hd]
          rw [hres] at h
          obtain ⟨hr, hs, hev⟩ := Res.finished.inj h
          rw [← hs] at herr
          rw [he] at herr
          simp at herr
        | some pair =>
          obtain ⟨s2, ph2⟩ := pair
          obtain ⟨herr2, _⟩ := dispatch_facts s s2 ph2 hd
          cases hse : sendEv s2.currentPercent s2 with
          | none =>
            have hres : run env (n + 1) s Phase.nextState = Res.blocked [] := by
              simp [run, he, hd, hse]
            rw [hres] at h
            exact Res.noConfusion h
          | some ev1 =>
            have hres : run env (n + 1) s Phase.nextState =
                (run env n s2 ph2).pre ev1 := by simp [run, he, hd, hse]
            rw [hres] at h
            obtain ⟨ev2, hx, hev⟩ := Res.pre_finished _ _ _ _ _ h
            have hlast := ih s2 ph2 r s1 ev2 hx herr
              (fun _ => by rw [herr2]; exact he)
            rw [hev, sendVals_append]
            exact getLast?_append_some _ hlast
    | configure =>
      cases ho : s.UpdateOpts with
      | nil =>
        have hres : run env (n + 1) s Phase.configure =
            run env n s Phase.nextState := by simp [run, ho]
        rw [hres] at h
        exact ih s .nextState r s1 ev h herr (by simp)
      | cons a l =>
        cases hcall : env.update with
        | error e =>
          have hres : run env (n + 1) s Phase.configure =
              (run env n {s with error := some e} Phase.nextState).pre
                [Event.callUpdate] := by simp [run, ho, hcall]
          rw [hres] at h
          obtain ⟨ev2, hx, hev⟩ := Res.pre_finished _ _ _ _ _ h
          have hlast := ih _ .nextState r s1 ev2 hx herr (by simp)
          rw [hev, sendVals_append]
          exact getLast?_append_some _ hlast
        | ok u =>
          have hres : run env (n + 1) s Phase.configure =
              (run env n s Phase.nextState).pre [Event.callUpdate] := by
            simp [run, ho, hcall]
          rw [hres] at h
          obtain ⟨ev2, hx, hev⟩ := Res.pre_finished _ _ _ _ _ h
          have hlast := ih s .nextState r s1 ev2 hx herr (by simp)
          rw [hev, sendVals_append]
          exact getLast?_append_some _ hlast
    | manage =>
      cases hcall : env.changeProvisionState "manage" with
      | error e =>
        have hres : run env (n + 1) s Phase.manage =
            (run env n {s with error := some e} Phase.nextState).pre
              [Event.callProvisionState "manage"] := by simp [run, hcall]
        rw [hres] at h
        obtain ⟨ev2, hx, hev⟩ := Res.pre_finished _ _ _ _ _ h
        have hlast := ih _ .nextState r s1 ev2 hx herr (by simp)
        rw [hev, sendVals_append]
        exact getLast?_append_some _ hlast
      | ok u =>
        have hres : run env (n + 1) s Phase.manage =
            (run env n s Phase.nextState).pre
              [Event.callProvisionState "manage"] := by simp [run, hcall]
        rw [hres] at h
        obtain ⟨ev2, hx, hev⟩ := Res.pre_finished _ _ _ _ _ h
        have hlast := ih s .nextState r s1 ev2 hx herr (by simp)
        rw [hev, sendVals_append]
        exact getLast?_append_some _ hlast
    | provide =>
      cases hcall : env.changeProvisionState "provide" with
      | error e =>
        have hres : run env (n + 1) s Phase.provide =
            (run env n {s with error := some e} Phase.nextState).pre
              [Event.callProvisionState "provide"] := by simp [run, hcall]
        rw [hres] at h
        obtain ⟨ev2, hx, hev⟩ := Res.pre_finished _ _ _ _ _ h
        have hlast := ih _ .nextState r s1 ev2 hx herr (by simp)
        rw [hev, sendVals_append]
        exact getLast?_append_some _ hlast
      | ok u =>
        have hres : run env (n + 1) s Phase.provide =
            (run env n {s with error := none} Phase.nextState).pre
              [Event.callProvisionState "provide"] := by simp [run, hcall]
        rw [hres] at h
        obtain ⟨ev2, hx, hev⟩ := Res.pre_finished _ _ _ _ _ h
        have hlast := ih _ .nextState r s1 ev2 hx herr (by simp)
        rw [hev, sendVals_append]
        exact getLast?_append_some _ hlast
    | deploy =>
      cases hcd : ConfigDrive.ToConfigDrive env.pack s.configDrive with
      | error e =>
        have hres : run env (n + 1) s Phase.deploy =
            run env n {s with error := some e} Phase.nextState := by simp [run, hcd]
        rw [hres] at h
        exact ih _ .nextState r s1 ev h herr (by simp)
      | ok cd =>
        cases hcall : env.changeProvisionState "active" with
        | error e =>
          have hres : run env (n + 1) s Phase.deploy =
              (run env n {s with error := some e} Phase.nextState).pre
                [Event.callProvisionState "active"] := by simp [run, hcd, hcall]
          rw [hres] at h
          obtain ⟨ev2, hx, hev⟩ := Res.pre_finished _ _ _ _ _ h
          have hlast := ih _ .nextState r s1 ev2 hx herr (by simp)
          rw [hev, sendVals_append]
          exact getLast?_append_some _ hlast
        | ok u =>
          have hres : run env (n + 1) s Phase.deploy =
              (run env n {s with error := none} Phase.nextState).pre
                [Event.callProvisionState "active"] := by simp [run, hcd, hcall]
          rw [hres] at h
          obtain ⟨ev2, hx, hev⟩ := Res.pre_finished _ _ _ _ _ h
          have hlast := ih _ .nextState r s1 ev2 hx herr (by simp)
          rw [hev, sendVals_append]
          exact getLast?_append_some _ hlast
    | waitManage =>
      cases hl : waitManageLoop env n s with
      | brk s2 ev1 =>
        have hres : run env (n + 1) s Phase.waitManage =
            (run env n s2 Phase.nextState).pre ev1 := by simp [run, hl]
        rw [hres] at h
        obtain ⟨ev2, hx, hev⟩ := Res.pre_finished _ _ _ _ _ h
        have hlast := ih s2 .nextState r s1 ev2 hx herr (by simp)
        rw [hev, sendVals_append]
        exact getLast?_append_some _ hlast
      | ret r2 s2 ev1 => exact absurd hl (waitManageLoop_no_ret env n s r2 s2 ev1)
      | blocked ev1 =>
        have hres : run env (n + 1) s Phase.waitManage = Res.blocked ev1 := by
          simp [run, hl]
        rw [hres] at h
        exact Res.noConfusion h
      | fuelOut ev1 =>
        have hres : run env (n + 1) s Phase.waitManage = Res.fuelOut ev1 := by
          simp [run, hl]
        rw [hres] at h
        exact Res.noConfusion h
    | waitProvide =>
      cases hl : waitProvideLoop env n s with
      | brk s2 ev1 =>
        have hres : run env (n + 1) s Phase.waitProvide =
            (run env n s2 Phase.nextState).pre ev1 := by simp [run, hl]
        rw [hres] at h
        obtain ⟨ev2, hx, hev⟩ := Res.pre_finished _ _ _ _ _ h
        have hlast := ih s2 .nextState r s1 ev2 hx herr (by simp)
        rw [hev, sendVals_append]
        exact getLast?_append_some _ hlast
      | ret r2 s2 ev1 =>
        have hres : run env (n + 1) s Phase.waitProvide = Res.finished r2 s2 ev1 := by
          simp [run, hl]
        rw [hres] at h
        obtain ⟨hr, hs, hev⟩ := Res.finished.inj h
        have hse : s2.error = s.error := waitProvideLoop_ret_error env n s r2 s2 ev1 hl
        rw [← hs, hse, hwp rfl] at herr
        simp at herr
      | blocked ev1 =>
        have hres : run env (n + 1) s Phase.waitProvide = Res.blocked ev1 := by
          simp [run, hl]
        rw [hres] at h
        exact Res.noConfusion h
      | fuelOut ev1 =>
        have hres : run env (n + 1) s Phase.waitProvide = Res.fuelOut ev1 := by
          simp [run, hl]
        rw [hres] at h
        exact Res.noConfusion h
    | waitDeploy =>
      cases hl : waitDeployLoop env n s with
      | brk s2 ev1 =>
        have hres : run env (n + 1) s Phase.waitDeploy =
            (run env n s2 Phase.nextState).pre ev1 := by simp [run, hl]
        rw [hres] at h
        obtain ⟨ev2, hx, hev⟩ := Res.pre_finished _ _ _ _ _ h
        have hlast := ih s2 .nextState r s1 ev2 hx herr (by simp)
        rw [hev, sendVals_append]
        exact getLast?_append_some _ hlast
      | ret r2 s2 ev1 => exact absurd hl (waitDeployLoop_no_ret env n s r2 s2 ev1)
      | blocked ev1 =>
        have hres : run env (n + 1) s Phase.waitDeploy = Res.blocked ev1 := by
          simp [run, hl]
        rw [hres] at h
        exact Res.noConfusion h
      | fuelOut ev1 =>
        have hres : run env (n + 1) s Phase.waitDeploy = Res.fuelOut ev1 := by
          simp [run, hl]
        rw [hres] at h
        exact Res.noConfusion h
    | done =>
      cases hse : sendEv StateDonePercent s with
      | none =>
        have hres : run env (n + 1) s Phase.done = Res.blocked [] := by simp [run, hse]
        rw [hres] at h
        exact Res.noConfusion h
      | some ev1 =>
        have hres : run env (n + 1) s Phase.done = Res.finished s.error s ev1 := by
          simp [run, hse]
        rw [hres] at h
        obtain ⟨hr, hs, hev⟩ := Res.finished.inj h
        rw [← hev, sendEv_some _ _ _ hse]
        rfl

/-- C2: the claim that a run observing an unrecognized provision state during
WAIT_MANAGE terminates in ERROR fails on the code: the waitManage loop records
the manage-failed error but does not break, so against a node that keeps
reporting the unrecognized state the run exhausts any amount of fuel without
finishing; the provide provision-state change is never requested. -/
theorem waitManage_unexpected_state_never_finishes (n : Nat) :
    (Deploy envWMStuck dEmpty false n).isFinished = false ∧
    (Deploy envWMStuck dEmpty false n).events.any isProvideCall = false := by
  match n with
  | 0 => exact ⟨by decide, by decide⟩
  | 1 => exact ⟨by decide, by decide⟩
  | 2 => exact ⟨by decide, by decide⟩
  | 3 => exact ⟨by decide, by decide⟩
  | 4 => exact ⟨by decide, by decide⟩
  | (m + 5) =>
    have heq : Deploy envWMStuck dEmpty false (m + 5) =
        closeWrap ((((((run envWMStuck m sWM Phase.waitManage).pre
          [Event.send 10]).pre [Event.callProvisionState "manage"]).pre
          [Event.send 0]).pre [Event.send 0]).pre [Event.send 0]) := rfl
    rw [heq]
    cases m with
    | zero => exact ⟨by decide, by decide⟩
    | succ m' =>
      obtain ⟨ev, hev, hprov⟩ := waitManageLoop_stuck m' sWM
      have hrun : run envWMStuck (m' + 1) sWM Phase.waitManage = Res.fuelOut ev := by
        simp only [run, hev]
      rw [hrun]
      have hmanage : isProvideCall (Event.callProvisionState "manage") = false := by decide
      constructor
      · simp [Res.pre, closeWrap, Res.isFinished]
      · simp [Res.pre, closeWrap, Res.events, List.any_append, List.any_cons,
          isProvideCall, hprov, hmanage]

/-- C4: each happy-path state carries the fixed weight the claim lists
(BEGIN 0, CONFIGURE 10, MANAGE 15, WAIT_MANAGE 20, PROVIDE 25,
WAIT_PROVIDE 30, DEPLOY 35), the weights are strictly increasing along the
happy-path order through WAIT_DEPLOY (95) and DONE (100); during WAIT_DEPLOY
the loop emits a bounded strictly increasing ramp that stays strictly below
100; and the done step always sends exactly StateDonePercent = 100. -/
theorem progress_weights_and_ramp :
    (StateBeginPercent = 0 ∧ StateConfigurePercent = 10 ∧ StateManagePercent = 15 ∧
     StateWaitManagePercent = 20 ∧ StateProvidePercent = 25 ∧
     StateWaitProvidePercent = 30 ∧ StateDeployPercent = 35 ∧ StateDonePercent = 100) ∧
    (StateBeginPercent < StateConfigurePercent ∧
     StateConfigurePercent < StateManagePercent ∧
     StateManagePercent < StateWaitManagePercent ∧
     StateWaitManagePercent < StateProvidePercent ∧
     StateProvidePercent < StateWaitProvidePercent ∧
     StateWaitProvidePercent < StateDeployPercent ∧
     StateDeployPercent < StateWaitDeployPercent ∧
     StateWaitDeployPercent < StateDonePercent) ∧
    (∀ (env : Env) (n : Nat) (s : DS),
      List.Chain' (· < ·) (s.currentPercent :: sendVals (waitDeployLoop env n s).events) ∧
      ∀ v ∈ sendVals (waitDeployLoop env n s).events, v < 100) ∧
    (∀ (env : Env) (n : Nat) (s : DS),
      run env (n + 1) {s with chanDummy := false} Phase.done =
        Res.finished s.error {s with chanDummy := false} [Event.send StateDonePercent]) :=
  ⟨by decide, by decide, fun env => waitDeployLoop_ramp env, fun env n s => rfl⟩

/-- C5: with an empty list of patch operations, CONFIGURE performs no remote
patch call at all (the configure step skips the update call and emits nothing,
and no later step of the run ever performs one) and the state machine still
advances to MANAGE and continues the happy path. -/
theorem configure_empty_opts_skips_update (env : Env) (n : Nat) (s0 : DS) :
    run env (n + 2)
        {s0 with UpdateOpts := [], error := none,
                 currentState := StateConfigure, chanDummy := false} Phase.configure =
      (run env n
        {s0 with UpdateOpts := [], error := none,
                 currentState := StateManage, chanDummy := false} Phase.manage).pre
        [Event.send s0.currentPercent] ∧
    Event.callUpdate ∉
      (run env (n + 2)
        {s0 with UpdateOpts := [], error := none,
                 currentState := StateConfigure, chanDummy := false} Phase.configure).events := by
  have h1 : run env (n + 2)
      {s0 with UpdateOpts := [], error := none,
               currentState := StateConfigure, chanDummy := false} Phase.configure =
      (run env n
        {s0 with UpdateOpts := [], error := none,
                 currentState := StateManage, chanDummy := false} Phase.manage).pre
        [Event.send s0.currentPercent] := rfl
  refine ⟨h1, ?_⟩
  rw [h1, Res.events_pre]
  intro hmem
  rcases List.mem_append.mp hmem with hmem | hmem
  · simp at hmem
  · exact run_no_update env n _ Phase.manage (by simp)
      (by simp [StateManage]) hmem

/-- C10, amended: in the integer-channel variant, every run started with a
caller-supplied (non-nil) channel that finishes with the Error field populated
sends StateDonePercent = 100 as its last channel value, immediately before
the single close. Runs that fail through the direct error return of
WAIT_PROVIDE leave the Error field nil and are exactly the excluded case. -/
theorem error_recorded_run_ends_with_done_percent (env : Env) (d : DeployInput)
    (fuel : Nat) (r : Option String) (s1 : DS) (ev : List Event)
    (h : Deploy env d false fuel = Res.finished r s1 ev)
    (herr : s1.error.isSome = true) :
    (sendVals ev).getLast? = some StateDonePercent ∧
    ev.getLast? = some Event.close := by
  have hD : Deploy env d false fuel =
      closeWrap ((run env fuel (initDS d false) Phase.nextState).pre
        [Event.send StateBeginPercent]) := rfl
  rw [hD] at h
  obtain ⟨ev0, hx0, hev0⟩ := closeWrap_finished _ _ _ _ h
  obtain ⟨ev1, hx1, hev1⟩ := Res.pre_finished _ _ _ _ _ hx0
  have hlast := run_finished_error_last_send env fuel (initDS d false)
    Phase.nextState r s1 ev1 hx1 herr (by simp)
  constructor
  · have h1 : sendVals [Event.send StateBeginPercent] = [StateBeginPercent] := rfl
    have h2 : sendVals [Event.close] = [] := rfl
    rw [hev0, hev1, sendVals_append, sendVals_append, h1, h2, List.append_nil]
    exact getLast?_append_some _ hlast
  · rw [hev0]
    exact getLast?_append_some _ rfl

/-- Witness for the amended C10 theorem: against envManageFail with fuel 20
the run finishes with the Error field populated, and its event list evMFail
indeed ends the sends with 100 and the whole trace with the close. -/
theorem error_recorded_run_ends_with_done_percent_witness :
    (sendVals evMFail).getLast? = some StateDonePercent ∧
    evMFail.getLast? = some Event.close :=
  error_recorded_run_ends_with_done_percent envManageFail dEmpty 20
    (some "manage call failed") sMFail evMFail (by decide) (by decide)

/-- C6: when user data is present and its serialization succeeds, the staged
tree maps openstack/latest/user_data to exactly the serialized bytes, with no
transformation, and the value ToConfigDrive returns is the base64 encoding of
the packed (ISO-9660 plus gzip) image of that staged tree. -/
theorem toConfigDrive_user_data_exact (pack : PackDirectoryAsISO) (cd : ConfigDrive)
    (u : UserDataBuilder) (b : String) (fs : List (String × String))
    (hu : cd.UserData = some u) (hb : u.ToUserData = Except.ok b)
    (hfs : cd.files = Except.ok fs) :
    fs.lookup "openstack/latest/user_data" = some b ∧
    ConfigDrive.ToConfigDrive pack cd = Except.map base64Encode (pack fs) := by
  have hufiles : userFiles cd.UserData =
      Except.ok [("openstack/latest/user_data", b)] := by
    rw [hu]
    simp [userFiles, hb]
  constructor
  · simp only [ConfigDrive.files, hufiles] at hfs
    cases hm : metaFiles cd.MetaData with
    | error e =>
      simp only [hm] at hfs
      exact Except.noConfusion hfs
    | ok l2 =>
      simp only [hm] at hfs
      cases hn : networkFiles cd.NetworkData with
      | error e =>
        simp only [hn] at hfs
        exact Except.noConfusion hfs
      | ok l3 =>
        simp only [hn] at hfs
        obtain hlist := Except.ok.inj hfs
        rw [← hlist]
        simp [List.lookup]
  · simp only [ConfigDrive.ToConfigDrive, hfs]
    cases hpk : pack fs with
    | error e => simp [Except.map]
    | ok bytes => simp [Except.map]

/-- Witness for the C6 theorem: the mapping with the single entry a mapped to
1 yields the staged tree fsW whose user_data file holds exactly the indented
JSON text, and the returned value is the base64 encoding of what the packer
produced on that tree. -/
theorem toConfigDrive_user_data_exact_witness :
    fsW.lookup "openstack/latest/user_data" = some "\x7b\n    \"a\": 1\n\x7d" ∧
    ConfigDrive.ToConfigDrive packW cdW = Except.map base64Encode (packW fsW) :=
  toConfigDrive_user_data_exact packW cdW (.map [("a", Jval.num 1)])
    "\x7b\n    \"a\": 1\n\x7d" fsW rfl rfl rfl

end GcUtils

